import Mathlib

/-!
Shallow embedding of the Belot rules engine (cards.py, declarations.py,
game.py) and verification of its specification claims.

Conventions of the embedding:
* Python machine integers are embedded as Nat (all quantities involved —
  scores, indices, counts — are non-negative and no subtraction occurs).
* Python lists become Lean lists; Python dicts keyed by player id become
  either association lists (when insertion order is observable, as for
  all_declarations) or total functions Nat → _ (when only lookup/update
  at player keys is used, as for hands and the belot flags).
* The two-element Python lists indexed by team (scores, round_scores,
  declaration_scores, tricks_won) become the TeamVals structure with
  get/add operations mirroring list indexing by 0/1.
* Methods returning Python result dicts return a Res value (ok or err)
  paired with the successor state.
-/

namespace Belot

inductive Suit
| clubs
| diamonds
| hearts
| spades
deriving DecidableEq, Repr, Fintype

inductive Rank
| seven
| eight
| nine
| ten
| jack
| queen
| king
| ace
deriving DecidableEq, Repr, Fintype

structure Card where
  suit : Suit
  rank : Rank
deriving DecidableEq, Repr, Fintype

instance : Inhabited Card := ⟨⟨Suit.clubs, Rank.seven⟩⟩

/-- cards.py NON_TRUMP_POINTS dict. -/
def NON_TRUMP_POINTS : Rank → Nat
| Rank.seven => 0
| Rank.eight => 0
| Rank.nine => 0
| Rank.ten => 10
| Rank.jack => 2
| Rank.queen => 3
| Rank.king => 4
| Rank.ace => 11

/-- cards.py TRUMP_POINTS dict. -/
def TRUMP_POINTS : Rank → Nat
| Rank.seven => 0
| Rank.eight => 0
| Rank.nine => 14
| Rank.ten => 10
| Rank.jack => 20
| Rank.queen => 3
| Rank.king => 4
| Rank.ace => 11

/-- cards.py NON_TRUMP_ORDER list (higher index = stronger). -/
def NON_TRUMP_ORDER : List Rank :=
  [Rank.seven, Rank.eight, Rank.nine,
   Rank.jack, Rank.queen, Rank.king, Rank.ten, Rank.ace]

/-- cards.py TRUMP_ORDER list. -/
def TRUMP_ORDER : List Rank :=
  [Rank.seven, Rank.eight, Rank.queen,
   Rank.king, Rank.ten, Rank.ace, Rank.nine, Rank.jack]

/-- Card.points. -/
def Card.points (c : Card) (trump_suit : Suit) : Nat :=
  if c.suit = trump_suit then TRUMP_POINTS c.rank else NON_TRUMP_POINTS c.rank

/-- Card.trump_order: position of the rank in TRUMP_ORDER. -/
def Card.trump_order (c : Card) : Nat := TRUMP_ORDER.indexOf c.rank

/-- Card.non_trump_order: position of the rank in NON_TRUMP_ORDER. -/
def Card.non_trump_order (c : Card) : Nat := NON_TRUMP_ORDER.indexOf c.rank

/-- Card.beats: does this card beat the other card? Sequential cascade of
the six tests in cards.py, final fall-through returns false. -/
def Card.beats (self other : Card) (trump_suit lead_suit : Suit) : Bool :=
  if self.suit == trump_suit && other.suit != trump_suit then true
  else if self.suit != trump_suit && other.suit == trump_suit then false
  else if self.suit == trump_suit && other.suit == trump_suit then
    decide (self.trump_order > other.trump_order)
  else if self.suit == lead_suit && other.suit != lead_suit then true
  else if self.suit != lead_suit && other.suit == lead_suit then false
  else if self.suit == other.suit then
    decide (self.non_trump_order > other.non_trump_order)
  else false

/-! declarations.py -/

/-- declarations.py DECL_ORDER list (plain 7..A order). -/
def DECL_ORDER : List Rank :=
  [Rank.seven, Rank.eight, Rank.nine, Rank.ten,
   Rank.jack, Rank.queen, Rank.king, Rank.ace]

/-- A declaration dict: the code builds dicts with a 'type' key that is
either 'sequence' (with length/top_rank/suit/score/is_trump fields) or
'four' (with rank/score fields). -/
inductive Decl
| sequence (length : Nat) (topRank : Rank) (suit : Suit) (score : Nat) (isTrump : Bool)
| four (rank : Rank) (score : Nat)
deriving DecidableEq, Repr

/-- The value of the 'type' key of a declaration dict. -/
def Decl.typeStr : Decl → String
| Decl.sequence _ _ _ _ _ => "sequence"
| Decl.four _ _ => "four"

/-- The 'score' field of a declaration dict. -/
def Decl.score : Decl → Nat
| Decl.sequence _ _ _ s _ => s
| Decl.four _ s => s

/-- seq_score. -/
def seq_score (length : Nat) : Nat :=
  if length = 3 then 20
  else if length = 4 then 50
  else if length = 5 then 100
  else if length = 6 then 150
  else if length = 7 then 200
  else if length ≥ 8 then 500
  else 0

/-- four_score. -/
def four_score : Rank → Nat
| Rank.ace => 100
| Rank.king => 100
| Rank.queen => 100
| Rank.jack => 200
| Rank.ten => 100
| Rank.nine => 150
| Rank.eight => 0
| Rank.seven => 0

/-- Insertion sort on Nat, models Python sorted() on a list of distinct
rank indices. -/
def insertSorted (x : Nat) : List Nat → List Nat
| [] => [x]
| y :: ys => if x ≤ y then x :: y :: ys else y :: insertSorted x ys

def sortNat (l : List Nat) : List Nat := l.foldr insertSorted []

/-- Split a sorted list of rank indices into its maximal runs of
consecutive values, mirroring the two-pointer scan in find_sequences. -/
def runsAux (prev : Nat) (cur : List Nat) : List Nat → List (List Nat)
| [] => [cur.reverse]
| y :: ys =>
  if y = prev + 1 then runsAux y (y :: cur) ys
  else cur.reverse :: runsAux y ([y] : List Nat) ys

def splitRuns : List Nat → List (List Nat)
| [] => []
| x :: xs => runsAux x [x] xs

/-- Suit enum iteration order of Python (dict built over Suit). -/
def SUIT_LIST : List Suit := [Suit.clubs, Suit.diamonds, Suit.hearts, Suit.spades]

/-- find_sequences: group hand by suit, sort each group in DECL_ORDER
index order, and emit one declaration per maximal run of length ≥ 3. -/
def find_sequences (hand : List Card) (trump_suit : Suit) : List Decl :=
  SUIT_LIST.flatMap (fun suit =>
    let cards := hand.filter (fun c => c.suit == suit)
    if cards.length < 3 then []
    else
      let ranks := sortNat (cards.map (fun c => DECL_ORDER.indexOf c.rank))
      (splitRuns ranks).filterMap (fun run =>
        if run.length ≥ 3 then
          some (Decl.sequence run.length (DECL_ORDER.getD (run.getLastD 0) Rank.seven)
                suit (seq_score run.length) (suit == trump_suit))
        else none))

/-- Ranks of the hand in order of first appearance, skipping ranks already
seen: the iteration order of the Python by_rank dict in
find_four_of_kind. -/
def firstOccsAux (seen : List Rank) : List Rank → List Rank
| [] => []
| r :: rs =>
  if seen.contains r then firstOccsAux seen rs
  else r :: firstOccsAux (r :: seen) rs

def firstOccs (l : List Rank) : List Rank := firstOccsAux [] l

/-- find_four_of_kind: one declaration per rank held exactly four times,
kept only when its four_score is positive. -/
def find_four_of_kind (hand : List Card) : List Decl :=
  (firstOccs (hand.map Card.rank)).filterMap (fun r =>
    if (hand.filter (fun c => c.rank == r)).length = 4 then
      if four_score r > 0 then some (Decl.four r (four_score r)) else none
    else none)

/-- get_all_declarations. -/
def get_all_declarations (hand : List Card) (trump_suit : Suit) : List Decl :=
  find_sequences hand trump_suit ++ find_four_of_kind hand

/-- has_8888. -/
def has_8888 (hand : List Card) : Bool :=
  (hand.filter (fun c => c.rank == Rank.eight)).length == 4

/-- has_7777. -/
def has_7777 (hand : List Card) : Bool :=
  (hand.filter (fun c => c.rank == Rank.seven)).length == 4

/-- check_belot. -/
def check_belot (hand : List Card) (trump_suit : Suit) : Bool :=
  (hand.any (fun c => c.suit == trump_suit && c.rank == Rank.king)) &&
  (hand.any (fun c => c.suit == trump_suit && c.rank == Rank.queen))

/-- decl_key in compare_declarations: the Python sort key tuple. -/
def decl_key : Decl → Nat × Nat × Nat × Nat
| Decl.four _ s => (2, s, 0, 0)
| Decl.sequence _ top _ s isT => (1, s, DECL_ORDER.indexOf top, if isT then 1 else 0)

/-- Python lexicographic tuple comparison a > b on 4-tuples, as used by
list.sort(key=decl_key, reverse=True). -/
def keyGt (a b : Nat × Nat × Nat × Nat) : Bool :=
  decide (a.1 > b.1 ∨ (a.1 = b.1 ∧ (a.2.1 > b.2.1 ∨ (a.2.1 = b.2.1 ∧
    (a.2.2.1 > b.2.2.1 ∨ (a.2.2.1 = b.2.2.1 ∧ a.2.2.2 > b.2.2.2))))))

/-- The head of a stable descending sort by decl_key: the first element of
the list whose key is maximal (foldl replaces the candidate only on a
strictly greater key, matching the stability of Python sort). -/
def foldBest (x : Nat × Decl) (xs : List (Nat × Decl)) : Nat × Decl :=
  xs.foldl (fun best y =>
    if keyGt (decl_key y.2) (decl_key best.2) then y else best) x

def pickBest : List (Nat × Decl) → Option (Nat × Decl)
| [] => none
| x :: xs => some (foldBest x xs)

/-- compare_declarations: flatten the (player_idx, declarations) pairs,
sort descending by decl_key, return the owner of the best declaration
(none models the empty-input early return, never hit by the caller). -/
def compare_declarations (decls_list : List (Nat × List Decl)) : Option Nat :=
  let all_decls := decls_list.flatMap (fun pd => pd.2.map (fun d => (pd.1, d)))
  (pickBest all_decls).map (fun pd => pd.1)

/-! game.py -/

/-- GameState constants. -/
inductive GState
| waiting
| bidding
| discarding
| declarations
| playing
| round_end
| game_end
deriving DecidableEq, Repr

/-- The two-element team-indexed Python lists ([0, 0] style): component
t0 is entry 0, t1 is entry 1. -/
structure TeamVals where
  t0 : Nat
  t1 : Nat
deriving DecidableEq, Repr

/-- list[team] for team ∈ {0, 1}. -/
def TeamVals.get (s : TeamVals) (team : Nat) : Nat :=
  if team = 0 then s.t0 else s.t1

/-- list[team] += n for team ∈ {0, 1}. -/
def TeamVals.add (s : TeamVals) (team : Nat) (n : Nat) : TeamVals :=
  if team = 0 then { s with t0 := s.t0 + n } else { s with t1 := s.t1 + n }

/-- One entry of tricks_history. -/
structure Trick where
  cards : List (Nat × Card)
  winner : Nat
  points : Nat
deriving DecidableEq, Repr

instance : Inhabited Trick := ⟨⟨[], 0, 0⟩⟩

/-- The BelotGame mutable state: exactly the fields read or written by the
methods embedded below (the bidding/deal fields are not needed by them).
trump_suit is embedded as Suit: every embedded method that reads it runs
after bidding fixed the trump. -/
structure BelotGame where
  max_players : Nat
  players : List Nat
  state : GState
  scores : TeamVals
  round_scores : TeamVals
  hands : Nat → List Card
  trump_suit : Suit
  taker_idx : Option Nat
  all_declarations : List (Nat × List Decl)
  declaration_scores : TeamVals
  declarations_done : List Nat
  belot_announced : Nat → Bool
  belot_score_given : Nat → Bool
  current_trick : List (Nat × Card)
  tricks_won : TeamVals
  tricks_history : List Trick
  current_player_idx : Nat
  eight_flag : Bool
  seven_flag : Bool
  dealer_idx : Nat

/-- total_tricks property. -/
def BelotGame.total_tricks (g : BelotGame) : Nat :=
  if g.max_players = 3 then 10 else 8

/-- team_of_idx. -/
def BelotGame.team_of_idx (g : BelotGame) (idx : Nat) : Nat :=
  if g.max_players = 4 then idx % 2
  else
    match g.taker_idx with
    | none => idx % 2
    | some t => if idx = t then 0 else 1

/-- team_of (players.index then team_of_idx). -/
def BelotGame.team_of (g : BelotGame) (player_id : Nat) : Nat :=
  g.team_of_idx (g.players.indexOf player_id)

/-- A result dict: ok ({"ok": True, ...}) or err msg ({"ok": False,
"error": msg}). -/
inductive Res
| ok
| err (msg : String)
deriving DecidableEq, Repr

/-- sorted(set(indices), reverse=True): distinct values descending. -/
def dedupSorted : List Nat → List Nat
| [] => []
| [x] => [x]
| x :: y :: rest =>
  if x = y then dedupSorted (y :: rest) else x :: dedupSorted (y :: rest)

def sortedSetDesc (l : List Nat) : List Nat := (dedupSorted (sortNat l)).reverse

/-- discard_cards (3-player only): validity cascade, then pop the selected
indices highest first and advance to DECLARATIONS. -/
def BelotGame.discard_cards (g : BelotGame) (player_id : Nat) (indices : List Nat) :
    Res × BelotGame :=
  if g.state ≠ GState.discarding then (Res.err "Not in discarding phase", g)
  else
    let taker_id := g.players.getD (g.taker_idx.getD 0) 0
    if player_id ≠ taker_id then (Res.err "Only the taker discards", g)
    else if indices.length ≠ 2 then (Res.err "Must discard exactly 2 cards", g)
    else
      let hand := g.hands player_id
      if indices.any (fun i => decide (i ≥ hand.length)) then
        (Res.err "Invalid card index", g)
      else
        let newHand := (sortedSetDesc indices).foldl (fun h i => h.eraseIdx i) hand
        (Res.ok,
         { g with
             hands := fun p => if p = player_id then newHand else g.hands p,
             state := GState.declarations })

/-- dict assignment d[k] = v on an association list: replace the entry if
the key is present, else append. -/
def setAssoc (l : List (Nat × List Decl)) (k : Nat) (v : List Decl) :
    List (Nat × List Decl) :=
  if l.any (fun e => e.1 == k) then
    l.map (fun e => if e.1 = k then (k, v) else e)
  else l ++ [(k, v)]

/-- The decls_list argument built by _resolve_declarations: entries of
all_declarations with a non-empty list, keyed by seat index. -/
def declsListOf (players : List Nat) (ad : List (Nat × List Decl)) :
    List (Nat × List Decl) :=
  ad.filterMap (fun pd =>
    if pd.2.isEmpty then none else some (players.indexOf pd.1, pd.2))

/-- _resolve_declarations: under the four-eights flag first empty every
player's declaration list down to its belot-typed entries; find the best
declaration owner; credit that owner's team with all of its members'
declaration scores; reset belot_score_given for every player. -/
def BelotGame.resolve_declarations (g : BelotGame) : BelotGame :=
  let ad :=
    if g.eight_flag then
      g.players.foldl (fun ad pid =>
        setAssoc ad pid (((ad.lookup pid).getD []).filter
          (fun d => d.typeStr == "belot"))) g.all_declarations
    else g.all_declarations
  let decls_list := declsListOf g.players ad
  let newScores :=
    match compare_declarations decls_list with
    | none => g.declaration_scores
    | some best_player_idx =>
      let winning_team := g.team_of_idx best_player_idx
      g.players.foldl (fun sc pid =>
        if g.team_of_idx (g.players.indexOf pid) = winning_team then
          (((ad.lookup pid).getD []).foldl
            (fun (s : TeamVals) (d : Decl) => s.add winning_team d.score) sc)
        else sc) g.declaration_scores
  { g with
      all_declarations := ad,
      declaration_scores := newScores,
      belot_score_given := fun p =>
        if g.players.contains p then false else g.belot_score_given p }

/-- The state mutations of submit_declarations before the all-done check:
record the declarations, raise the special-rule flags, note the belot
eligibility and mark the player done. -/
def submit_record (g : BelotGame) (player_id : Nat) : BelotGame :=
  { g with
      eight_flag := g.eight_flag || has_8888 (g.hands player_id),
      seven_flag := g.seven_flag || has_7777 (g.hands player_id),
      all_declarations := setAssoc g.all_declarations player_id
        (get_all_declarations (g.hands player_id) g.trump_suit),
      declarations_done := g.declarations_done ++ [player_id],
      belot_announced := fun p =>
        if p = player_id then check_belot (g.hands player_id) g.trump_suit
        else g.belot_announced p }

/-- submit_declarations: reject a double submit; otherwise record the
player's declarations and flags, and when the last player submits resolve
the declarations and advance to PLAYING. -/
def BelotGame.submit_declarations (g : BelotGame) (player_id : Nat) :
    Res × BelotGame :=
  if g.declarations_done.contains player_id then (Res.err "Already submitted", g)
  else
    let g2 := submit_record g player_id
    if g2.declarations_done.length = g2.max_players then
      (Res.ok, { g2.resolve_declarations with state := GState.playing })
    else (Res.ok, g2)

/-- Fold a sequence of submit_declarations calls over the table. -/
def submit_all (g : BelotGame) (seq : List Nat) : BelotGame :=
  seq.foldl (fun g p => (g.submit_declarations p).2) g

/-- The winning (player_id, card) of the current trick so far: start from
the lead pair and replace whenever a later card beats the current best,
as in the scan at the top of get_valid_cards. -/
def trick_best (trick : List (Nat × Card)) (trump lead_suit : Suit) : Nat × Card :=
  match trick with
  | [] => (0, default)
  | pc0 :: rest =>
    rest.foldl (fun w pc => if pc.2.beats w.2 trump lead_suit then pc else w) pc0

/-- The suit of the first card of the current trick. -/
def BelotGame.lead_suit (g : BelotGame) : Suit :=
  (g.current_trick.headD (0, default)).2.suit

/-- The current best card of the trick. -/
def BelotGame.winning_card (g : BelotGame) : Card :=
  (trick_best g.current_trick g.trump_suit g.lead_suit).2

/-- The partner_winning test of get_valid_cards: does the acting player's
team currently hold the best card of the trick (by seat parity in
4-player mode, by team_of_idx in 3-player mode)? -/
def BelotGame.partner_winning (g : BelotGame) (player_id : Nat) : Bool :=
  let wpc := trick_best g.current_trick g.trump_suit g.lead_suit
  let winning_player_idx := g.players.indexOf wpc.1
  let player_idx := g.players.indexOf player_id
  if g.max_players = 4 then winning_player_idx % 2 == player_idx % 2
  else g.team_of_idx winning_player_idx == g.team_of_idx player_idx

/-- get_valid_cards. -/
def BelotGame.get_valid_cards (g : BelotGame) (player_id : Nat) : List Card :=
  let hand := g.hands player_id
  match g.current_trick with
  | [] => hand
  | _ :: _ =>
    let lead_suit := g.lead_suit
    let trump := g.trump_suit
    let winning_card := g.winning_card
    let partner_winning := g.partner_winning player_id
    let lead_cards := hand.filter (fun c => c.suit == lead_suit)
    let trump_cards := hand.filter (fun c => c.suit == trump)
    if !lead_cards.isEmpty then
      if lead_suit = trump then
        let higher := lead_cards.filter (fun c =>
          decide (c.trump_order > winning_card.trump_order))
        if !higher.isEmpty then higher else lead_cards
      else lead_cards
    else if partner_winning then hand
    else if !trump_cards.isEmpty then
      if winning_card.suit = trump then
        let higher := trump_cards.filter (fun c =>
          decide (c.trump_order > winning_card.trump_order))
        if !higher.isEmpty then higher else trump_cards
      else trump_cards
    else hand

/-- taker_team of _end_round. -/
def BelotGame.taker_team (g : BelotGame) : Nat :=
  if g.max_players = 4 then (g.taker_idx.getD 0) % 2 else 0

/-- The bonus phase at the top of _end_round: +10 to the team winning the
last trick, +90 per clean sweep, plus each team's declaration score, all
accumulated into round_scores. -/
def BelotGame.apply_bonuses (g : BelotGame) : BelotGame :=
  let last_winner := (g.tricks_history.getLastD default).winner
  let last_team := g.team_of last_winner
  let g := { g with round_scores := g.round_scores.add last_team 10 }
  let g := { g with round_scores :=
    if g.tricks_won.get 0 = g.total_tricks then g.round_scores.add 0 90
    else g.round_scores }
  let g := { g with round_scores :=
    if g.tricks_won.get 1 = g.total_tricks then g.round_scores.add 1 90
    else g.round_scores }
  let g := { g with round_scores := g.round_scores.add 0 (g.declaration_scores.get 0) }
  { g with round_scores := g.round_scores.add 1 (g.declaration_scores.get 1) }

/-- The state at the four-sevens check of _end_round: ROUND_END set and
all bonuses applied. -/
def BelotGame.bonused (g : BelotGame) : BelotGame :=
  BelotGame.apply_bonuses { g with state := GState.round_end }

/-- _end_round: set ROUND_END, apply bonuses; under the four-sevens flag
only rotate the dealer; otherwise settle the contract into the cumulative
scores, rotate the dealer, and end the game at 151. -/
def BelotGame.end_round (g : BelotGame) : BelotGame :=
  let g := g.bonused
  if g.seven_flag then
    { g with dealer_idx := (g.dealer_idx + 1) % g.max_players }
  else
    let taker_team := g.taker_team
    let opponent_team := 1 - taker_team
    let taker_pts := g.round_scores.get taker_team
    let opp_pts := g.round_scores.get opponent_team
    let g :=
      if taker_pts > opp_pts then
        { g with scores := (g.scores.add taker_team taker_pts).add opponent_team opp_pts }
      else if taker_pts = opp_pts then
        { g with scores := g.scores.add opponent_team opp_pts }
      else
        { g with scores := g.scores.add opponent_team (taker_pts + opp_pts) }
    let g := { g with dealer_idx := (g.dealer_idx + 1) % g.max_players }
    if g.scores.get 0 ≥ 151 ∨ g.scores.get 1 ≥ 151 then
      { g with state := GState.game_end }
    else
      { g with state := GState.round_end }

/-! ## Helper lemmas -/

theorem mem_firstOccsAux (l : List Rank) :
    ∀ (seen : List Rank) (a : Rank), a ∈ firstOccsAux seen l ↔ a ∈ l ∧ a ∉ seen := by
  induction l with
  | nil => simp [firstOccsAux]
  | cons r rs ih =>
    intro seen a
    by_cases h : seen.contains r
    · rw [firstOccsAux, if_pos h, ih]
      have hr : r ∈ seen := by simpa using h
      constructor
      · rintro ⟨h1, h2⟩
        exact ⟨List.mem_cons_of_mem _ h1, h2⟩
      · rintro ⟨h1, h2⟩
        rcases List.mem_cons.mp h1 with h1 | h1
        · subst h1; exact absurd hr h2
        · exact ⟨h1, h2⟩
    · rw [firstOccsAux, if_neg h]
      simp only [List.mem_cons, ih, List.mem_cons, not_or]
      by_cases ha : a = r
      · subst ha
        have : a ∉ seen := by simpa using h
        simp [this]
      · simp [ha]

theorem mem_firstOccs (l : List Rank) (a : Rank) : a ∈ firstOccs l ↔ a ∈ l := by
  rw [firstOccs, mem_firstOccsAux]
  simp

theorem keyGt_irrefl (a : Nat × Nat × Nat × Nat) : keyGt a a = false := by
  unfold keyGt
  rw [decide_eq_false_iff_not]
  omega

theorem keyGt_trans {a b c : Nat × Nat × Nat × Nat}
    (h1 : keyGt a b = true) (h2 : keyGt b c = true) : keyGt a c = true := by
  simp only [keyGt, decide_eq_true_eq] at *
  omega

theorem keyGt_le_trans {a b c : Nat × Nat × Nat × Nat}
    (h1 : keyGt a b = false) (h2 : keyGt b c = false) : keyGt a c = false := by
  simp only [keyGt, decide_eq_false_iff_not] at *
  omega

theorem foldBest_spec (xs : List (Nat × Decl)) :
    ∀ x : Nat × Decl,
      (foldBest x xs = x ∨ foldBest x xs ∈ xs) ∧
      keyGt (decl_key x.2) (decl_key (foldBest x xs).2) = false ∧
      ∀ y ∈ xs, keyGt (decl_key y.2) (decl_key (foldBest x xs).2) = false := by
  induction xs with
  | nil =>
    intro x
    exact ⟨Or.inl rfl, keyGt_irrefl _, by simp⟩
  | cons y ys ih =>
    intro x
    by_cases h : keyGt (decl_key y.2) (decl_key x.2) = true
    · have hstep : foldBest x (y :: ys) = foldBest y ys := by
        simp [foldBest, List.foldl_cons, h]
      obtain ⟨hm, hy, hall⟩ := ih y
      rw [hstep]
      refine ⟨?_, ?_, ?_⟩
      · rcases hm with hm | hm
        · exact Or.inr (by rw [hm]; exact List.mem_cons_self y ys)
        · exact Or.inr (List.mem_cons_of_mem _ hm)
      · cases hc : keyGt (decl_key x.2) (decl_key (foldBest y ys).2) with
        | false => rfl
        | true =>
          have := keyGt_trans h hc
          rw [this] at hy
          exact hy
      · intro z hz
        rcases List.mem_cons.mp hz with hz | hz
        · exact hz ▸ hy
        · exact hall z hz
    · have hf : keyGt (decl_key y.2) (decl_key x.2) = false := by
        simpa using h
      have hstep : foldBest x (y :: ys) = foldBest x ys := by
        simp [foldBest, List.foldl_cons, hf]
      obtain ⟨hm, hx, hall⟩ := ih x
      rw [hstep]
      refine ⟨?_, hx, ?_⟩
      · rcases hm with hm | hm
        · exact Or.inl hm
        · exact Or.inr (List.mem_cons_of_mem _ hm)
      · intro z hz
        rcases List.mem_cons.mp hz with hz | hz
        · exact hz ▸ keyGt_le_trans hf hx
        · exact hall z hz

theorem pickBest_spec (dl : List (Nat × Decl)) (b : Nat × Decl)
    (h : pickBest dl = some b) :
    b ∈ dl ∧ ∀ y ∈ dl, keyGt (decl_key y.2) (decl_key b.2) = false := by
  cases dl with
  | nil => simp [pickBest] at h
  | cons x xs =>
    have hb : b = foldBest x xs := by
      simpa [pickBest] using h.symm
    obtain ⟨hm, hx, hall⟩ := foldBest_spec xs x
    subst hb
    refine ⟨?_, ?_⟩
    · rcases hm with hm | hm
      · rw [hm]; exact List.mem_cons_self x xs
      · exact List.mem_cons_of_mem _ hm
    · intro y hy
      rcases List.mem_cons.mp hy with hy | hy
      · exact hy ▸ hx
      · exact hall y hy

theorem TeamVals.get_add_self (s : TeamVals) (t n : Nat) :
    (s.add t n).get t = s.get t + n := by
  unfold TeamVals.add TeamVals.get
  by_cases h : t = 0 <;> simp [h]

theorem TeamVals.get_add_other (s : TeamVals) (t u n : Nat)
    (h : (t = 0 ∧ u ≠ 0) ∨ (t ≠ 0 ∧ u = 0)) : (s.add t n).get u = s.get u := by
  unfold TeamVals.add TeamVals.get
  rcases h with ⟨h1, h2⟩ | ⟨h1, h2⟩ <;> simp [h1, h2]

theorem TeamVals.add_add (s : TeamVals) (t a b : Nat) :
    (s.add t a).add t b = s.add t (a + b) := by
  unfold TeamVals.add
  by_cases h : t = 0 <;> simp [h, Nat.add_assoc]

theorem TeamVals.add_nil (s : TeamVals) (t : Nat) : s.add t 0 = s := by
  unfold TeamVals.add
  by_cases h : t = 0 <;> simp [h]

/-- Sum of the score fields of a declaration list. -/
def declScoreSum (ds : List Decl) : Nat := (ds.map Decl.score).sum

/-- Total declaration score held by a team: the sum, over the players of
that team, of the scores of all their recorded declarations. -/
def teamDeclSum (g : BelotGame) (team : Nat) : Nat :=
  ((g.players.filter (fun pid => g.team_of_idx (g.players.indexOf pid) == team)).map
    (fun pid => declScoreSum ((g.all_declarations.lookup pid).getD []))).sum

theorem fold_decl_add (wt : Nat) (ds : List Decl) :
    ∀ sc : TeamVals,
      ds.foldl (fun (s : TeamVals) (d : Decl) => s.add wt d.score) sc
        = sc.add wt (declScoreSum ds) := by
  induction ds with
  | nil =>
    intro sc
    simp [declScoreSum, TeamVals.add_nil]
  | cons d ds ih =>
    intro sc
    rw [List.foldl_cons, ih, TeamVals.add_add]
    simp [declScoreSum]

theorem fold_players_add (tm : Nat → Nat) (look : Nat → List Decl) (wt : Nat) :
    ∀ (ps : List Nat) (sc : TeamVals),
      ps.foldl (fun sc pid =>
        if tm pid = wt then
          (look pid).foldl (fun (s : TeamVals) (d : Decl) => s.add wt d.score) sc
        else sc) sc
      = sc.add wt
          (((ps.filter (fun pid => tm pid == wt)).map
            (fun pid => declScoreSum (look pid))).sum) := by
  intro ps
  induction ps with
  | nil =>
    intro sc
    simp [TeamVals.add_nil]
  | cons p ps ih =>
    intro sc
    by_cases h : tm p = wt
    · rw [List.foldl_cons, if_pos h, fold_decl_add, ih, TeamVals.add_add]
      have hf : (tm p == wt) = true := by simpa using h
      simp [List.filter_cons, hf]
    · have hf : (tm p == wt) = false := by simpa using h
      rw [List.foldl_cons, if_neg h, ih]
      simp [List.filter_cons, hf]

theorem team_of_idx_cases (g : BelotGame) (i : Nat) :
    g.team_of_idx i = 0 ∨ g.team_of_idx i = 1 := by
  unfold BelotGame.team_of_idx
  by_cases h4 : g.max_players = 4
  · simp only [h4, if_true]
    omega
  · simp only [h4, if_false]
    cases g.taker_idx with
    | none => simp; omega
    | some t => by_cases ht : i = t <;> simp [ht]

/-! ## Claims -/

set_option maxHeartbeats 2000000 in
/-- C9: for distinct cards a and b, beats(a,b,trump,lead) and
beats(b,a,trump,lead) are never both true; and for two off-suit non-trump
cards of different suits neither of which is the lead suit, beats returns
false. -/
theorem beats_asymmetric_and_offsuit_false :
    (∀ a b : Card, ∀ trump lead : Suit, a ≠ b →
      ¬(a.beats b trump lead = true ∧ b.beats a trump lead = true)) ∧
    (∀ a b : Card, ∀ trump lead : Suit,
      a.suit ≠ trump → b.suit ≠ trump → a.suit ≠ lead → b.suit ≠ lead →
      a.suit ≠ b.suit → a.beats b trump lead = false) := by
  constructor
  · decide
  · decide

/-- Witness for C9 at concrete cards: the ace and king of clubs with clubs
led and hearts trump, and an off-suit pairing. -/
theorem beats_asymmetric_witness :
    ¬((Card.beats ⟨Suit.clubs, Rank.ace⟩ ⟨Suit.clubs, Rank.king⟩ Suit.hearts Suit.clubs = true) ∧
      (Card.beats ⟨Suit.clubs, Rank.king⟩ ⟨Suit.clubs, Rank.ace⟩ Suit.hearts Suit.clubs = true)) ∧
    Card.beats ⟨Suit.clubs, Rank.ace⟩ ⟨Suit.diamonds, Rank.king⟩ Suit.hearts Suit.spades = false :=
  ⟨beats_asymmetric_and_offsuit_false.1 _ _ _ _ (by decide),
   beats_asymmetric_and_offsuit_false.2 _ _ _ _ (by decide) (by decide) (by decide)
     (by decide) (by decide)⟩

/-- C8 (amended): for every hand holding all four cards of a rank whose
four_score is positive, find_four_of_kind emits the declaration for that
rank, scored 100 for A/K/Q/10, 150 for 9 and 200 for J; for Seven and
Eight the score table gives 0 and no declaration at all is emitted. -/
theorem find_four_of_kind_spec :
    (∀ (hand : List Card) (r : Rank),
      (hand.filter (fun c => c.rank == r)).length = 4 → four_score r > 0 →
      Decl.four r (four_score r) ∈ find_four_of_kind hand) ∧
    (∀ (hand : List Card) (s : Nat),
      Decl.four Rank.seven s ∉ find_four_of_kind hand ∧
      Decl.four Rank.eight s ∉ find_four_of_kind hand) ∧
    four_score Rank.ace = 100 ∧ four_score Rank.king = 100 ∧
    four_score Rank.queen = 100 ∧ four_score Rank.ten = 100 ∧
    four_score Rank.nine = 150 ∧ four_score Rank.jack = 200 ∧
    four_score Rank.seven = 0 ∧ four_score Rank.eight = 0 := by
  refine ⟨?_, ?_, rfl, rfl, rfl, rfl, rfl, rfl, rfl, rfl⟩
  · intro hand r hcount hpos
    have hlen : 0 < (hand.filter (fun c => c.rank == r)).length := by omega
    obtain ⟨c, hc⟩ := List.exists_mem_of_length_pos hlen
    have hcr : c ∈ hand ∧ c.rank = r := by
      have := List.mem_filter.mp hc
      exact ⟨this.1, by simpa using this.2⟩
    have hrmem : r ∈ firstOccs (hand.map Card.rank) := by
      rw [mem_firstOccs]
      exact List.mem_map.mpr ⟨c, hcr.1, hcr.2⟩
    rw [find_four_of_kind]
    refine List.mem_filterMap.mpr ⟨r, hrmem, ?_⟩
    simp [hcount, hpos]
  · intro hand s
    constructor
    · intro hmem
      rw [find_four_of_kind] at hmem
      obtain ⟨a, _, hfa⟩ := List.mem_filterMap.mp hmem
      by_cases h1 : (hand.filter (fun c => c.rank == a)).length = 4
      · by_cases h2 : four_score a > 0
        · simp only [h1, if_true, h2, if_true, Option.some.injEq, Decl.four.injEq] at hfa
          obtain ⟨ha, _⟩ := hfa
          subst ha
          simp [four_score] at h2
        · simp [h1, h2] at hfa
      · simp [h1] at hfa
    · intro hmem
      rw [find_four_of_kind] at hmem
      obtain ⟨a, _, hfa⟩ := List.mem_filterMap.mp hmem
      by_cases h1 : (hand.filter (fun c => c.rank == a)).length = 4
      · by_cases h2 : four_score a > 0
        · simp only [h1, if_true, h2, if_true, Option.some.injEq, Decl.four.injEq] at hfa
          obtain ⟨ha, _⟩ := hfa
          subst ha
          simp [four_score] at h2
        · simp [h1, h2] at hfa
      · simp [h1] at hfa

/-- A hand of the four jacks. -/
def fourJacksHand : List Card :=
  [⟨Suit.clubs, Rank.jack⟩, ⟨Suit.diamonds, Rank.jack⟩,
   ⟨Suit.hearts, Rank.jack⟩, ⟨Suit.spades, Rank.jack⟩]

/-- A hand of the four eights. -/
def fourEightsHand : List Card :=
  [⟨Suit.clubs, Rank.eight⟩, ⟨Suit.diamonds, Rank.eight⟩,
   ⟨Suit.hearts, Rank.eight⟩, ⟨Suit.spades, Rank.eight⟩]

/-- Witness for C8 (amended) at the four-jacks hand: the 200-point
declaration is emitted. -/
theorem find_four_of_kind_witness :
    ((fourJacksHand.filter (fun c => c.rank == Rank.jack)).length = 4 ∧
      four_score Rank.jack > 0) ∧
    Decl.four Rank.jack 200 ∈ find_four_of_kind fourJacksHand :=
  ⟨⟨by decide, by decide⟩,
   find_four_of_kind_spec.1 fourJacksHand Rank.jack (by decide) (by decide)⟩

/-- Counterexample to C8 as stated: a hand of four eights yields no
four-of-a-kind declaration at all, not a zero-scored one. -/
theorem find_four_of_kind_counterexample :
    find_four_of_kind fourEightsHand = [] := by decide


set_option maxHeartbeats 800000 in
/-- C4: declarations are ranked by the descending key tuple
(isFourOfKind, score, top-card rank, isTrumpSequence): any four-of-a-kind
outranks any sequence regardless of score, equal-score sequences are
ordered by top card then by being in trump; the best declaration is a
key-maximal element of the submitted pool, and resolution credits the
best owner's team with the sum of all of that team's declaration scores
while the other team's declaration score is unchanged. -/
theorem declaration_resolution_sound :
    (∀ (rk : Rank) (s l : Nat) (t : Rank) (su : Suit) (sc : Nat) (b : Bool),
      keyGt (decl_key (Decl.four rk s)) (decl_key (Decl.sequence l t su sc b)) = true) ∧
    (∀ (l1 : Nat) (t1 : Rank) (su1 : Suit) (b1 : Bool) (l2 : Nat) (t2 : Rank)
       (su2 : Suit) (b2 : Bool) (sc : Nat),
      DECL_ORDER.indexOf t1 > DECL_ORDER.indexOf t2 →
      keyGt (decl_key (Decl.sequence l1 t1 su1 sc b1))
            (decl_key (Decl.sequence l2 t2 su2 sc b2)) = true) ∧
    (∀ (l1 : Nat) (su1 : Suit) (l2 : Nat) (su2 : Suit) (sc : Nat) (t : Rank),
      keyGt (decl_key (Decl.sequence l1 t su1 sc true))
            (decl_key (Decl.sequence l2 t su2 sc false)) = true) ∧
    (∀ (dl : List (Nat × List Decl)) (b : Nat × Decl),
      pickBest (dl.flatMap (fun pd => pd.2.map (fun d => (pd.1, d)))) = some b →
      compare_declarations dl = some b.1 ∧
      b ∈ dl.flatMap (fun pd => pd.2.map (fun d => (pd.1, d))) ∧
      ∀ y ∈ dl.flatMap (fun pd => pd.2.map (fun d => (pd.1, d))),
        keyGt (decl_key y.2) (decl_key b.2) = false) ∧
    (∀ (g : BelotGame) (bidx : Nat), g.eight_flag = false →
      compare_declarations (declsListOf g.players g.all_declarations) = some bidx →
      g.resolve_declarations.declaration_scores.get (g.team_of_idx bidx)
        = g.declaration_scores.get (g.team_of_idx bidx)
          + teamDeclSum g (g.team_of_idx bidx) ∧
      g.resolve_declarations.declaration_scores.get (1 - g.team_of_idx bidx)
        = g.declaration_scores.get (1 - g.team_of_idx bidx)) := by
  refine ⟨?_, ?_, ?_, ?_, ?_⟩
  · intro rk s l t su sc b
    simp only [decl_key, keyGt, decide_eq_true_eq]
    omega
  · intro l1 t1 su1 b1 l2 t2 su2 b2 sc h
    cases b1 <;> cases b2 <;> simp [decl_key, keyGt] <;> omega
  · intro l1 su1 l2 su2 sc t
    simp [decl_key, keyGt]
  · intro dl b h
    obtain ⟨hmem, hmax⟩ := pickBest_spec _ b h
    refine ⟨?_, hmem, hmax⟩
    simp [compare_declarations, h]
  · intro g bidx h8 hcomp
    unfold BelotGame.resolve_declarations
    simp only [h8, Bool.false_eq_true, if_false, hcomp]
    rw [fold_players_add]
    constructor
    · rw [TeamVals.get_add_self]
      simp [teamDeclSum]
    · apply TeamVals.get_add_other
      rcases team_of_idx_cases g bidx with h | h
      · rw [h]; left; exact ⟨rfl, by norm_num⟩
      · rw [h]; right; exact ⟨by norm_num, rfl⟩


/-- A concrete resolved table: player 0 (team 0) declared a 200-point
sequence, player 1 (team 1) declared four jacks. -/
def gameA : BelotGame := {
  max_players := 4
  players := [0, 1, 2, 3]
  state := GState.declarations
  scores := ⟨0, 0⟩
  round_scores := ⟨0, 0⟩
  hands := fun _ => []
  trump_suit := Suit.hearts
  taker_idx := some 0
  all_declarations :=
    [(0, [Decl.sequence 7 Rank.ace Suit.clubs 200 false]),
     (1, [Decl.four Rank.jack 200])]
  declaration_scores := ⟨0, 0⟩
  declarations_done := [0, 1, 2, 3]
  belot_announced := fun _ => false
  belot_score_given := fun _ => false
  current_trick := []
  tricks_won := ⟨0, 0⟩
  tricks_history := []
  current_player_idx := 1
  eight_flag := false
  seven_flag := false
  dealer_idx := 0 }

/-- Witness for C4: on gameA the four-of-a-kind of player 1 beats the
200-point sequence of player 0, team 1 banks 200 declaration points and
team 0 banks none. -/
theorem declaration_resolution_witness :
    gameA.eight_flag = false ∧
    compare_declarations (declsListOf gameA.players gameA.all_declarations) = some 1 ∧
    gameA.resolve_declarations.declaration_scores.get 1 = 200 ∧
    gameA.resolve_declarations.declaration_scores.get 0 = 0 := by
  have h := declaration_resolution_sound.2.2.2.2 gameA 1 rfl rfl
  exact ⟨rfl, rfl, h.1.trans (by decide), h.2.trans (by decide)⟩


/-- C1: with a non-empty trick and the acting player holding cards of the
lead suit, get_valid_cards returns exactly those lead-suit cards when the
lead suit is not trump; when the lead suit is trump it returns exactly
the trumps strictly above the current best card, or all the player's
trumps when no such higher trump is held. -/
theorem gvc_follow_lead (g : BelotGame) (pid : Nat)
    (ht : g.current_trick ≠ [])
    (hl : (g.hands pid).filter (fun c => c.suit == g.lead_suit) ≠ []) :
    (g.lead_suit ≠ g.trump_suit →
      g.get_valid_cards pid = (g.hands pid).filter (fun c => c.suit == g.lead_suit)) ∧
    (g.lead_suit = g.trump_suit →
      ((g.hands pid).filter (fun c => c.suit == g.trump_suit)).filter
          (fun c => decide (c.trump_order > g.winning_card.trump_order)) ≠ [] →
      g.get_valid_cards pid =
        ((g.hands pid).filter (fun c => c.suit == g.trump_suit)).filter
          (fun c => decide (c.trump_order > g.winning_card.trump_order))) ∧
    (g.lead_suit = g.trump_suit →
      ((g.hands pid).filter (fun c => c.suit == g.trump_suit)).filter
          (fun c => decide (c.trump_order > g.winning_card.trump_order)) = [] →
      g.get_valid_cards pid = (g.hands pid).filter (fun c => c.suit == g.trump_suit)) := by
  have hle : ((g.hands pid).filter (fun c => c.suit == g.lead_suit)).isEmpty = false :=
    List.isEmpty_eq_false.mpr hl
  rcases hcc : g.current_trick with _ | ⟨pc, rest⟩
  · exact absurd hcc ht
  · refine ⟨?_, ?_, ?_⟩
    · intro hne
      simp only [BelotGame.get_valid_cards, hcc, hle, Bool.not_false, if_true, if_neg hne]
    · intro heq hhi
      have hhe : (((g.hands pid).filter (fun c => c.suit == g.trump_suit)).filter
          (fun c => decide (c.trump_order > g.winning_card.trump_order))).isEmpty = false :=
        List.isEmpty_eq_false.mpr hhi
      simp only [BelotGame.get_valid_cards, hcc]
      rw [heq] at hle ⊢
      simp only [hle, Bool.not_false, if_true, if_pos rfl, hhe]
    · intro heq hhi
      have hhe : (((g.hands pid).filter (fun c => c.suit == g.trump_suit)).filter
          (fun c => decide (c.trump_order > g.winning_card.trump_order))).isEmpty = true := by
        simp [hhi]
      simp only [BelotGame.get_valid_cards, hcc]
      rw [heq] at hle ⊢
      simp only [hle, Bool.not_false, if_true, if_pos rfl, hhe, Bool.not_true, Bool.false_eq_true, if_false]

/-- A trick led in spades (not trump) with the acting player holding
spades. -/
def gameB : BelotGame := {
  max_players := 4
  players := [10, 11, 12, 13]
  state := GState.playing
  scores := ⟨0, 0⟩
  round_scores := ⟨0, 0⟩
  hands := fun p => if p = 11 then
      [⟨Suit.spades, Rank.seven⟩, ⟨Suit.spades, Rank.ace⟩, ⟨Suit.hearts, Rank.nine⟩]
    else []
  trump_suit := Suit.hearts
  taker_idx := some 0
  all_declarations := []
  declaration_scores := ⟨0, 0⟩
  declarations_done := []
  belot_announced := fun _ => false
  belot_score_given := fun _ => false
  current_trick := [(10, ⟨Suit.spades, Rank.king⟩)]
  tricks_won := ⟨0, 0⟩
  tricks_history := []
  current_player_idx := 1
  eight_flag := false
  seven_flag := false
  dealer_idx := 0 }

/-- A trick led in trump (hearts) with the acting player holding a higher
trump (the jack) over the king. -/
def gameC : BelotGame := { gameB with
  current_trick := [(10, ⟨Suit.hearts, Rank.king⟩)]
  hands := fun p => if p = 11 then
      [⟨Suit.hearts, Rank.seven⟩, ⟨Suit.hearts, Rank.jack⟩, ⟨Suit.clubs, Rank.eight⟩]
    else [] }

/-- Witness for C1 on gameB (must follow spades) and gameC (lead is
trump: must overtrump the king, only the jack qualifies). -/
theorem gvc_follow_lead_witness :
    gameB.get_valid_cards 11 =
      [⟨Suit.spades, Rank.seven⟩, ⟨Suit.spades, Rank.ace⟩] ∧
    gameC.get_valid_cards 11 = [⟨Suit.hearts, Rank.jack⟩] :=
  ⟨((gvc_follow_lead gameB 11 (by decide) (by decide)).1 (by decide)).trans (by decide),
   ((gvc_follow_lead gameC 11 (by decide) (by decide)).2.1 rfl (by decide)).trans (by decide)⟩

/-- C2: with a non-empty trick, no lead-suit card in hand, the player's
team not holding the best card, the best card not a trump, and trumps in
hand, get_valid_cards returns exactly the player's trump cards. -/
theorem gvc_cut_required (g : BelotGame) (pid : Nat)
    (ht : g.current_trick ≠ [])
    (hl : (g.hands pid).filter (fun c => c.suit == g.lead_suit) = [])
    (hpw : g.partner_winning pid = false)
    (hwc : g.winning_card.suit ≠ g.trump_suit)
    (htc : (g.hands pid).filter (fun c => c.suit == g.trump_suit) ≠ []) :
    g.get_valid_cards pid = (g.hands pid).filter (fun c => c.suit == g.trump_suit) := by
  have hle : ((g.hands pid).filter (fun c => c.suit == g.lead_suit)).isEmpty = true := by
    simp [hl]
  have hte : ((g.hands pid).filter (fun c => c.suit == g.trump_suit)).isEmpty = false :=
    List.isEmpty_eq_false.mpr htc
  rcases hcc : g.current_trick with _ | ⟨pc, rest⟩
  · exact absurd hcc ht
  · simp only [BelotGame.get_valid_cards, hcc, hle, Bool.not_true, Bool.false_eq_true,
      if_false, hpw, hte, Bool.not_false, if_true, if_neg hwc]

/-- The scenario table of C2: trump hearts, spades led with the ace on
the table from the opposing team, the acting player holding the jack and
nine of hearts and no spades. -/
def gameCut : BelotGame := { gameB with
  hands := fun p => if p = 11 then
      [⟨Suit.hearts, Rank.jack⟩, ⟨Suit.hearts, Rank.nine⟩, ⟨Suit.clubs, Rank.eight⟩]
    else []
  current_trick := [(10, ⟨Suit.spades, Rank.ace⟩)] }

/-- Witness for C2: on the scenario table get_valid_cards returns exactly
the jack and nine of hearts. -/
theorem gvc_cut_required_witness :
    gameCut.get_valid_cards 11 =
      [⟨Suit.hearts, Rank.jack⟩, ⟨Suit.hearts, Rank.nine⟩] :=
  (gvc_cut_required gameCut 11 (by decide) (by decide) (by decide) (by decide)
    (by decide)).trans (by decide)

/-- C10: whenever the acting player's hand is non-empty, get_valid_cards
is non-empty and contained in the hand: every fallback branch of the
legal-move computation yields at least one card from the hand. -/
theorem gvc_nonempty_and_in_hand (g : BelotGame) (pid : Nat)
    (hne : g.hands pid ≠ []) :
    g.get_valid_cards pid ≠ [] ∧ ∀ c ∈ g.get_valid_cards pid, c ∈ g.hands pid := by
  have hsub1 : ∀ (p : Card → Bool) (c : Card),
      c ∈ (g.hands pid).filter p → c ∈ g.hands pid :=
    fun p c hc => (List.mem_filter.mp hc).1
  have hsub2 : ∀ (p q : Card → Bool) (c : Card),
      c ∈ ((g.hands pid).filter p).filter q → c ∈ g.hands pid :=
    fun p q c hc => hsub1 p c (List.mem_filter.mp hc).1
  rcases hcc : g.current_trick with _ | ⟨pc, rest⟩
  · simp only [BelotGame.get_valid_cards, hcc]
    exact ⟨hne, fun c hc => hc⟩
  · simp only [BelotGame.get_valid_cards, hcc]
    split_ifs with h1 h2 h3 h4 h5 h6 h7 <;>
      refine ⟨?_, ?_⟩ <;>
      first
        | exact hne
        | exact List.isEmpty_eq_false.mp (by simpa using h1)
        | exact List.isEmpty_eq_false.mp (by simpa using h2)
        | exact List.isEmpty_eq_false.mp (by simpa using h3)
        | exact List.isEmpty_eq_false.mp (by simpa using h4)
        | exact List.isEmpty_eq_false.mp (by simpa using h5)
        | exact List.isEmpty_eq_false.mp (by simpa using h6)
        | exact List.isEmpty_eq_false.mp (by simpa using h7)
        | (intro c hc;
           first
             | exact hsub2 _ _ c hc
             | exact hsub1 _ c hc
             | exact hc)



theorem bonused_seven_flag (g : BelotGame) : g.bonused.seven_flag = g.seven_flag := by
  unfold BelotGame.bonused BelotGame.apply_bonuses
  simp

theorem bonused_scores (g : BelotGame) : g.bonused.scores = g.scores := by
  unfold BelotGame.bonused BelotGame.apply_bonuses
  simp

theorem bonused_dealer_idx (g : BelotGame) : g.bonused.dealer_idx = g.dealer_idx := by
  unfold BelotGame.bonused BelotGame.apply_bonuses
  simp

theorem bonused_max_players (g : BelotGame) : g.bonused.max_players = g.max_players := by
  unfold BelotGame.bonused BelotGame.apply_bonuses
  simp

theorem bonused_taker_team (g : BelotGame) : g.bonused.taker_team = g.taker_team := by
  unfold BelotGame.bonused BelotGame.apply_bonuses BelotGame.taker_team
  simp

theorem taker_team_cases (g : BelotGame) : g.taker_team = 0 ∨ g.taker_team = 1 := by
  unfold BelotGame.taker_team
  by_cases h : g.max_players = 4
  · simp only [h, if_true]
    omega
  · simp [h]

/-- C5: with the four-sevens flag set, _end_round leaves both cumulative
team scores exactly as they were and advances the dealer index by one
seat modulo the player count; no contract evaluation happens. -/
theorem end_round_seven_void (g : BelotGame) (h7 : g.seven_flag = true) :
    g.end_round.scores = g.scores ∧
    g.end_round.dealer_idx = (g.dealer_idx + 1) % g.max_players := by
  have h7b : g.bonused.seven_flag = true := (bonused_seven_flag g).trans h7
  unfold BelotGame.end_round
  simp only [h7b, if_true]
  exact ⟨bonused_scores g, by rw [bonused_dealer_idx, bonused_max_players]⟩

/-- C3: with the four-sevens flag clear, _end_round settles the contract
on the bonus-inclusive round totals: if the taker's team total strictly
exceeds the opponents' each team banks its own total; if it is strictly
lower the opponents bank both totals and the taker's team banks nothing;
if they are equal the opponents bank their own total and the taker's
points are discarded. -/
theorem end_round_contract (g : BelotGame) (h7 : g.seven_flag = false) :
    (g.bonused.round_scores.get g.taker_team >
        g.bonused.round_scores.get (1 - g.taker_team) →
      g.end_round.scores.get g.taker_team
        = g.scores.get g.taker_team + g.bonused.round_scores.get g.taker_team ∧
      g.end_round.scores.get (1 - g.taker_team)
        = g.scores.get (1 - g.taker_team)
          + g.bonused.round_scores.get (1 - g.taker_team)) ∧
    (g.bonused.round_scores.get g.taker_team <
        g.bonused.round_scores.get (1 - g.taker_team) →
      g.end_round.scores.get (1 - g.taker_team)
        = g.scores.get (1 - g.taker_team)
          + (g.bonused.round_scores.get g.taker_team
             + g.bonused.round_scores.get (1 - g.taker_team)) ∧
      g.end_round.scores.get g.taker_team = g.scores.get g.taker_team) ∧
    (g.bonused.round_scores.get g.taker_team =
        g.bonused.round_scores.get (1 - g.taker_team) →
      g.end_round.scores.get (1 - g.taker_team)
        = g.scores.get (1 - g.taker_team)
          + g.bonused.round_scores.get (1 - g.taker_team) ∧
      g.end_round.scores.get g.taker_team = g.scores.get g.taker_team) := by
  have h7b : g.bonused.seven_flag = false := (bonused_seven_flag g).trans h7
  rcases taker_team_cases g with htt | htt <;>
    refine ⟨?_, ?_, ?_⟩ <;> intro hcmp <;>
      (unfold BelotGame.end_round
       simp only [h7b, Bool.false_eq_true, if_false, bonused_taker_team, htt]
       rw [htt] at hcmp
       split_ifs <;>
         first
           | (exfalso; omega)
           | (constructor <;> simp [TeamVals.get, TeamVals.add, bonused_scores]))

/-- The C3 scenario table: 4-player, taker team 0 with 75 round points
plus the last trick (85 total) against 95, cumulative scores 7 and 9. -/
def gameD : BelotGame := {
  max_players := 4
  players := [10, 11, 12, 13]
  state := GState.playing
  scores := ⟨7, 9⟩
  round_scores := ⟨75, 95⟩
  hands := fun _ => []
  trump_suit := Suit.hearts
  taker_idx := some 0
  all_declarations := []
  declaration_scores := ⟨0, 0⟩
  declarations_done := []
  belot_announced := fun _ => false
  belot_score_given := fun _ => false
  current_trick := []
  tricks_won := ⟨4, 4⟩
  tricks_history := [⟨[], 10, 5⟩]
  current_player_idx := 0
  eight_flag := false
  seven_flag := false
  dealer_idx := 0 }

/-- Witness for C3 on gameD: the taker fails 85 to 95, the opponents bank
180 points (ending on 189) and the taker's team stays on 7. -/
theorem end_round_contract_witness :
    (gameD.seven_flag = false ∧
     gameD.bonused.round_scores.get gameD.taker_team = 85 ∧
     gameD.bonused.round_scores.get (1 - gameD.taker_team) = 95) ∧
    gameD.end_round.scores.get (1 - gameD.taker_team) = 189 ∧
    gameD.end_round.scores.get gameD.taker_team = 7 := by
  have h := (end_round_contract gameD rfl).2.1 (by decide)
  exact ⟨⟨rfl, by decide, by decide⟩, h.1.trans (by decide), h.2.trans (by decide)⟩

/-- The C3 scenario table with the four-sevens flag raised. -/
def gameE : BelotGame := { gameD with seven_flag := true }

/-- Witness for C5 on gameE: scores stay at (7, 9) and the dealer moves
from seat 0 to seat 1. -/
theorem end_round_seven_void_witness :
    gameE.seven_flag = true ∧
    gameE.end_round.scores = gameE.scores ∧
    gameE.end_round.dealer_idx = 1 :=
  ⟨rfl, (end_round_seven_void gameE rfl).1,
   (end_round_seven_void gameE rfl).2.trans (by decide)⟩



/-- A 3-player table in the discarding phase: taker (id 20) holds 12
cards after picking up the two reserved ones. -/
def gameF : BelotGame := {
  max_players := 3
  players := [20, 21, 22]
  state := GState.discarding
  scores := ⟨0, 0⟩
  round_scores := ⟨0, 0⟩
  hands := fun p => if p = 20 then
      SUIT_LIST.flatMap (fun s => [⟨s, Rank.seven⟩, ⟨s, Rank.eight⟩, ⟨s, Rank.nine⟩])
    else []
  trump_suit := Suit.hearts
  taker_idx := some 0
  all_declarations := []
  declaration_scores := ⟨0, 0⟩
  declarations_done := []
  belot_announced := fun _ => false
  belot_score_given := fun _ => false
  current_trick := []
  tricks_won := ⟨0, 0⟩
  tricks_history := []
  current_player_idx := 1
  eight_flag := false
  seven_flag := false
  dealer_idx := 0 }

/-- C6 at concrete inputs: wrong player, wrong count and an out-of-range
index are rejected with the state returned untouched, and a discard of
two distinct valid indices leaves 10 cards — but the duplicate-index call
[0, 0] passes every check, is answered ok, removes only one card (11
remain instead of 10) and still advances the state to declarations,
contradicting the documented guarantee that a successful discard removes
exactly two cards. -/
theorem discard_cards_duplicate_index_bug :
    (gameF.hands 20).length = 12 ∧
    gameF.discard_cards 21 [0, 1] = (Res.err "Only the taker discards", gameF) ∧
    gameF.discard_cards 20 [0, 1, 2] = (Res.err "Must discard exactly 2 cards", gameF) ∧
    gameF.discard_cards 20 [0, 12] = (Res.err "Invalid card index", gameF) ∧
    (gameF.discard_cards 20 [3, 1]).1 = Res.ok ∧
    ((gameF.discard_cards 20 [3, 1]).2.hands 20).length = 10 ∧
    (gameF.discard_cards 20 [0, 0]).1 = Res.ok ∧
    ((gameF.discard_cards 20 [0, 0]).2.hands 20).length = 11 ∧
    (gameF.discard_cards 20 [0, 0]).2.state = GState.declarations :=
  ⟨rfl, rfl, rfl, rfl, rfl, rfl, rfl, rfl, rfl⟩


theorem belot_filter_nil (ds : List Decl) :
    ds.filter (fun d => d.typeStr == "belot") = [] := by
  induction ds with
  | nil => rfl
  | cons d t ih =>
    have hd : (d.typeStr == "belot") = false := by cases d <;> rfl
    simp only [List.filter_cons, hd, Bool.false_eq_true, if_false, ih]

theorem mem_setAssoc {l : List (Nat × List Decl)} {k : Nat} {v : List Decl} :
    ∀ e ∈ setAssoc l k v, e = (k, v) ∨ (e ∈ l ∧ e.1 ≠ k) := by
  intro e he
  unfold setAssoc at he
  by_cases h : l.any (fun e => e.1 == k) = true
  · rw [if_pos h] at he
    obtain ⟨x, hx, hxe⟩ := List.mem_map.mp he
    by_cases hk : x.1 = k
    · rw [if_pos hk] at hxe
      exact Or.inl hxe.symm
    · rw [if_neg hk] at hxe
      exact Or.inr ⟨hxe ▸ hx, hxe ▸ hk⟩
  · rw [if_neg h] at he
    rcases List.mem_append.mp he with he | he
    · refine Or.inr ⟨he, fun hk => h ?_⟩
      exact List.any_eq_true.mpr ⟨e, he, by simp [hk]⟩
    · simp only [List.mem_singleton] at he
      exact Or.inl he

theorem loop_empties : ∀ (ps : List Nat) (ad : List (Nat × List Decl)),
    (∀ e ∈ ad, e.2 = [] ∨ e.1 ∈ ps) →
    ∀ e ∈ ps.foldl (fun ad pid =>
        setAssoc ad pid (((ad.lookup pid).getD []).filter
          (fun d => d.typeStr == "belot"))) ad, e.2 = [] := by
  intro ps
  induction ps with
  | nil =>
    intro ad h e he
    rcases h e he with h1 | h1
    · exact h1
    · simp at h1
  | cons p ps ih =>
    intro ad h e he
    rw [List.foldl_cons] at he
    refine ih _ ?_ e he
    intro x hx
    rcases mem_setAssoc x hx with h1 | ⟨h1, h2⟩
    · subst h1
      exact Or.inl (belot_filter_nil _)
    · rcases h x h1 with h3 | h3
      · exact Or.inl h3
      · rcases List.mem_cons.mp h3 with h4 | h4
        · exact absurd h4 h2
        · exact Or.inr h4

theorem loop_keys : ∀ (ps : List Nat) (ad : List (Nat × List Decl)) (P : List Nat),
    (∀ e ∈ ad, e.1 ∈ P) → (∀ q ∈ ps, q ∈ P) →
    ∀ e ∈ ps.foldl (fun ad pid =>
        setAssoc ad pid (((ad.lookup pid).getD []).filter
          (fun d => d.typeStr == "belot"))) ad, e.1 ∈ P := by
  intro ps
  induction ps with
  | nil => intro ad P h _ e he; exact h e he
  | cons p ps ih =>
    intro ad P h hps e he
    rw [List.foldl_cons] at he
    refine ih _ P ?_ (fun q hq => hps q (List.mem_cons_of_mem _ hq)) e he
    intro x hx
    rcases mem_setAssoc x hx with h1 | ⟨h1, _⟩
    · subst h1
      exact hps p (List.mem_cons_self p ps)
    · exact h x h1

theorem declsListOf_nil {ps : List Nat} {ad : List (Nat × List Decl)}
    (h : ∀ e ∈ ad, e.2 = []) : declsListOf ps ad = [] := by
  rw [declsListOf, List.filterMap_eq_nil_iff]
  intro e he
  simp [h e he]

theorem resolve_8888 (g : BelotGame) (h8 : g.eight_flag = true)
    (hkeys : ∀ e ∈ g.all_declarations, e.1 ∈ g.players) :
    g.resolve_declarations.declaration_scores = g.declaration_scores ∧
    ∀ e ∈ g.resolve_declarations.all_declarations, e.2 = [] := by
  have hempty : ∀ e ∈ g.players.foldl (fun ad pid =>
      setAssoc ad pid (((ad.lookup pid).getD []).filter
        (fun d => d.typeStr == "belot"))) g.all_declarations, e.2 = [] :=
    loop_empties g.players g.all_declarations (fun e he => Or.inr (hkeys e he))
  have hD : declsListOf g.players (g.players.foldl (fun ad pid =>
      setAssoc ad pid (((ad.lookup pid).getD []).filter
        (fun d => d.typeStr == "belot"))) g.all_declarations) = [] :=
    declsListOf_nil hempty
  unfold BelotGame.resolve_declarations
  simp only [h8, if_true, hD]
  exact ⟨rfl, hempty⟩

theorem resolve_preserves (g : BelotGame) :
    g.resolve_declarations.players = g.players ∧
    g.resolve_declarations.max_players = g.max_players ∧
    g.resolve_declarations.hands = g.hands ∧
    g.resolve_declarations.eight_flag = g.eight_flag ∧
    g.resolve_declarations.declarations_done = g.declarations_done :=
  ⟨rfl, rfl, rfl, rfl, rfl⟩

theorem resolve_keys (g : BelotGame)
    (hkeys : ∀ e ∈ g.all_declarations, e.1 ∈ g.players) :
    ∀ e ∈ g.resolve_declarations.all_declarations, e.1 ∈ g.players := by
  unfold BelotGame.resolve_declarations
  by_cases h8 : g.eight_flag = true
  · simp only [h8, if_true]
    exact loop_keys g.players g.all_declarations g.players hkeys (fun q hq => hq)
  · have h8f : g.eight_flag = false := by simpa using h8
    simp only [h8f, Bool.false_eq_true, if_false]
    exact hkeys


theorem submit_rejected (g : BelotGame) (q : Nat)
    (hc : g.declarations_done.contains q = true) :
    g.submit_declarations q = (Res.err "Already submitted", g) := by
  unfold BelotGame.submit_declarations
  rw [if_pos hc]

theorem submit_processed (g : BelotGame) (q : Nat)
    (hc : g.declarations_done.contains q = false) :
    (g.submit_declarations q).2 =
      if (g.declarations_done ++ [q]).length = g.max_players
      then { (submit_record g q).resolve_declarations with state := GState.playing }
      else submit_record g q := by
  have hneg : ¬(g.declarations_done.contains q = true) := by
    rw [hc]
    exact Bool.false_ne_true
  unfold BelotGame.submit_declarations
  rw [if_neg hneg]
  by_cases ht : (g.declarations_done ++ [q]).length = g.max_players
  · rw [if_pos ht, if_pos (show (submit_record g q).declarations_done.length
      = (submit_record g q).max_players from ht)]
  · rw [if_neg ht, if_neg (show ¬((submit_record g q).declarations_done.length
      = (submit_record g q).max_players) from ht)]

theorem done_not_full {done players : List Nat} {p : Nat}
    (hp : p ∈ players) (hpd : p ∉ done)
    (hsub : ∀ x ∈ done, x ∈ players) (hnodup : done.Nodup) :
    done.length ≠ players.length := by
  intro hlen
  have hsub2 : (p :: done) ⊆ players := by
    intro x hx
    rcases List.mem_cons.mp hx with h | h
    · exact h ▸ hp
    · exact hsub x h
  have hnodup2 : (p :: done).Nodup := List.nodup_cons.mpr ⟨hpd, hnodup⟩
  have hle := (List.subperm_of_subset hnodup2 hsub2).length_le
  rw [List.length_cons, hlen] at hle
  omega

theorem submit_all_8888_scores :
    ∀ (seq : List Nat) (g : BelotGame) (p : Nat),
      (∀ q ∈ seq, q ∈ g.players) →
      (∀ e ∈ g.all_declarations, e.1 ∈ g.players) →
      (∀ x ∈ g.declarations_done, x ∈ g.players) →
      g.declarations_done.Nodup →
      g.players.Nodup →
      g.players.length = g.max_players →
      (g.eight_flag = true ∨
        (p ∈ seq ∧ p ∈ g.players ∧ g.declarations_done.contains p = false ∧
         has_8888 (g.hands p) = true)) →
      (submit_all g seq).declaration_scores = g.declaration_scores := by
  intro seq
  induction seq with
  | nil =>
    intro g p _ _ _ _ _ _ hdisj
    rcases hdisj with _ | ⟨hmem, _⟩
    · rfl
    · simp at hmem
  | cons q rest ih =>
    intro g p hseq hkeys hdone hnodup hpnodup hmax hdisj
    have hq : q ∈ g.players := hseq q (List.mem_cons_self q rest)
    have hstep : submit_all g (q :: rest) =
        submit_all ((g.submit_declarations q).2) rest := rfl
    by_cases hc : g.declarations_done.contains q = true
    · have hrej : (g.submit_declarations q).2 = g := by rw [submit_rejected g q hc]
      rw [hstep, hrej]
      refine ih g p (fun r hr => hseq r (List.mem_cons_of_mem _ hr)) hkeys hdone
        hnodup hpnodup hmax ?_
      rcases hdisj with h8 | ⟨hmem, hpp, hpc, hph⟩
      · exact Or.inl h8
      · refine Or.inr ⟨?_, hpp, hpc, hph⟩
        rcases List.mem_cons.mp hmem with he | he
        · exfalso
          have hpnd : p ∉ g.declarations_done := by simpa using hpc
          have hqd : q ∈ g.declarations_done := by simpa using hc
          exact hpnd (he ▸ hqd)
        · exact he
    · have hcf : g.declarations_done.contains q = false := by simpa using hc
      have hqnd : q ∉ g.declarations_done := by simpa using hcf
      have hsub' : ∀ x ∈ g.declarations_done ++ [q], x ∈ g.players := by
        intro x hx
        rcases List.mem_append.mp hx with h | h
        · exact hdone x h
        · simp only [List.mem_singleton] at h
          exact h ▸ hq
      have hnodup' : (g.declarations_done ++ [q]).Nodup := by
        rw [List.nodup_append]
        refine ⟨hnodup, List.nodup_singleton q, ?_⟩
        intro x hx hx2
        simp only [List.mem_singleton] at hx2
        exact hqnd (hx2 ▸ hx)
      have hkeys2 : ∀ e ∈ (submit_record g q).all_declarations, e.1 ∈ g.players := by
        intro e he
        rcases mem_setAssoc e he with h1 | ⟨h1, _⟩
        · rw [h1]
          exact hq
        · exact hkeys e h1
      rw [hstep, submit_processed g q hcf]
      by_cases htrig : (g.declarations_done ++ [q]).length = g.max_players
      · rw [if_pos htrig]
        have hflag2 : (submit_record g q).eight_flag = true := by
          rcases hdisj with h8 | ⟨hmem, hpp, hpc, hph⟩
          · simp [submit_record, h8]
          · by_cases hpq : p = q
            · subst hpq
              simp [submit_record, hph]
            · exfalso
              have hpnd : p ∉ g.declarations_done := by simpa using hpc
              have hpd' : p ∉ g.declarations_done ++ [q] := by
                intro hmem2
                rcases List.mem_append.mp hmem2 with h | h
                · exact hpnd h
                · simp only [List.mem_singleton] at h
                  exact hpq h
              exact done_not_full hpp hpd' hsub' hnodup' (htrig.trans hmax.symm)
        have hres := resolve_8888 (submit_record g q) hflag2 hkeys2
        have hkeys3 := resolve_keys (submit_record g q) hkeys2
        have hih := ih { (submit_record g q).resolve_declarations with
            state := GState.playing } p
          (fun r hr => hseq r (List.mem_cons_of_mem _ hr))
          hkeys3 hsub' hnodup' hpnodup hmax
          (Or.inl ((resolve_preserves (submit_record g q)).2.2.2.1.trans hflag2))
        rw [hih]
        exact hres.1
      · rw [if_neg htrig]
        refine ih (submit_record g q) p
          (fun r hr => hseq r (List.mem_cons_of_mem _ hr))
          hkeys2 hsub' hnodup' hpnodup hmax ?_
        rcases hdisj with h8 | ⟨hmem, hpp, hpc, hph⟩
        · exact Or.inl (by simp [submit_record, h8])
        · by_cases hpq : p = q
          · subst hpq
            exact Or.inl (by simp [submit_record, hph])
          · refine Or.inr ⟨?_, hpp, ?_, hph⟩
            · rcases List.mem_cons.mp hmem with he | he
              · exact absurd he hpq
              · exact he
            · show (g.declarations_done ++ [q]).contains p = false
              have hpnd : p ∉ g.declarations_done := by simpa using hpc
              have hout : p ∉ g.declarations_done ++ [q] := by
                intro hmem2
                rcases List.mem_append.mp hmem2 with h | h
                · exact hpnd h
                · simp only [List.mem_singleton] at h
                  exact hpq h
              simpa using hout


/-- C7: when any submitted hand holds all four eights the flag is raised
and meld scoring is voided: resolution first discards every sequence and
four-of-a-kind declaration (every recorded list becomes empty) and awards
zero declaration points to both teams; consequently, for any submission
sequence in which the four-eights holder submits, the declaration scores
after all submissions equal their initial values. -/
theorem eight_eights_cancel_melds :
    (∀ g : BelotGame, g.eight_flag = true →
      (∀ e ∈ g.all_declarations, e.1 ∈ g.players) →
      g.resolve_declarations.declaration_scores = g.declaration_scores ∧
      ∀ e ∈ g.resolve_declarations.all_declarations, e.2 = []) ∧
    (∀ (seq : List Nat) (g : BelotGame) (p : Nat),
      (∀ q ∈ seq, q ∈ g.players) →
      (∀ e ∈ g.all_declarations, e.1 ∈ g.players) →
      (∀ x ∈ g.declarations_done, x ∈ g.players) →
      g.declarations_done.Nodup →
      g.players.Nodup →
      g.players.length = g.max_players →
      p ∈ seq → p ∈ g.players → g.declarations_done.contains p = false →
      has_8888 (g.hands p) = true →
      (submit_all g seq).declaration_scores = g.declaration_scores) :=
  ⟨resolve_8888, fun seq g p h1 h2 h3 h4 h5 h6 hm hp hcont hh =>
    submit_all_8888_scores seq g p h1 h2 h3 h4 h5 h6 (Or.inr ⟨hm, hp, hcont, hh⟩)⟩

/-- A declarations-phase table in which player 0 holds the four eights
and player 1 holds a 20-point sequence (jack-queen-king of spades). -/
def gameG : BelotGame := {
  max_players := 4
  players := [0, 1, 2, 3]
  state := GState.declarations
  scores := ⟨0, 0⟩
  round_scores := ⟨0, 0⟩
  hands := fun p =>
    if p = 0 then
      [⟨Suit.clubs, Rank.eight⟩, ⟨Suit.diamonds, Rank.eight⟩,
       ⟨Suit.hearts, Rank.eight⟩, ⟨Suit.spades, Rank.eight⟩,
       ⟨Suit.clubs, Rank.seven⟩, ⟨Suit.diamonds, Rank.nine⟩,
       ⟨Suit.clubs, Rank.ten⟩, ⟨Suit.diamonds, Rank.jack⟩]
    else if p = 1 then
      [⟨Suit.spades, Rank.jack⟩, ⟨Suit.spades, Rank.queen⟩,
       ⟨Suit.spades, Rank.king⟩, ⟨Suit.clubs, Rank.ace⟩,
       ⟨Suit.diamonds, Rank.ten⟩, ⟨Suit.hearts, Rank.seven⟩,
       ⟨Suit.clubs, Rank.nine⟩, ⟨Suit.diamonds, Rank.queen⟩]
    else if p = 2 then
      [⟨Suit.spades, Rank.ace⟩, ⟨Suit.spades, Rank.ten⟩,
       ⟨Suit.clubs, Rank.queen⟩, ⟨Suit.diamonds, Rank.king⟩,
       ⟨Suit.hearts, Rank.ten⟩, ⟨Suit.hearts, Rank.ace⟩,
       ⟨Suit.clubs, Rank.jack⟩, ⟨Suit.diamonds, Rank.seven⟩]
    else
      [⟨Suit.hearts, Rank.jack⟩, ⟨Suit.hearts, Rank.nine⟩,
       ⟨Suit.clubs, Rank.king⟩, ⟨Suit.diamonds, Rank.ace⟩,
       ⟨Suit.spades, Rank.seven⟩, ⟨Suit.spades, Rank.nine⟩,
       ⟨Suit.hearts, Rank.king⟩, ⟨Suit.hearts, Rank.queen⟩]
  trump_suit := Suit.hearts
  taker_idx := some 0
  all_declarations := []
  declaration_scores := ⟨0, 0⟩
  declarations_done := []
  belot_announced := fun _ => false
  belot_score_given := fun _ => false
  current_trick := []
  tricks_won := ⟨0, 0⟩
  tricks_history := []
  current_player_idx := 1
  eight_flag := false
  seven_flag := false
  dealer_idx := 0 }

/-- Witness for C7: on gameG, after all four players submit, the
declaration scores are still (0, 0) — the spade sequence of player 1 is
cancelled by the four eights of player 0. -/
theorem eight_eights_cancel_melds_witness :
    has_8888 (gameG.hands 0) = true ∧
    (submit_all gameG [0, 1, 2, 3]).declaration_scores = TeamVals.mk 0 0 := by
  refine ⟨by decide, ?_⟩
  have h := eight_eights_cancel_melds.2 [0, 1, 2, 3] gameG 0
    (by decide) (by decide) (by decide) (by decide) (by decide) (by decide)
    (by decide) (by decide) (by decide) (by decide)
  exact h.trans rfl


/-- Witness for C10 on gameB: the hand is non-empty, and the legal moves
are non-empty and drawn from the hand. -/
theorem gvc_nonempty_and_in_hand_witness :
    gameB.hands 11 ≠ [] ∧
    gameB.get_valid_cards 11 ≠ [] ∧
    ∀ c ∈ gameB.get_valid_cards 11, c ∈ gameB.hands 11 := by
  have h := gvc_nonempty_and_in_hand gameB 11 (by decide)
  exact ⟨by decide, h.1, h.2⟩

end Belot
